import Mathlib

/-!
Verification of the `barley` workflow engine (crate `barley-runtime`).

The development shallowly embeds the data model and the scheduler of
`src/barley-runtime/src/{runtime.rs, output.rs, scope.rs, action.rs,
error.rs, input.rs}`.  Pure functions become Lean functions; the two
concurrent procedures (`Runtime::perform`, `Runtime::rollback`) become an
event-trace semantics: each spawned tokio task is translated into its
deterministic list of observable events (barrier arrivals, barrier
releases, `probe`, `run`, output-store inserts), and a trace is valid when
every task's events form a prefix of its program and every barrier release
is preceded by enough arrivals, exactly as a `tokio::sync::Barrier` of the
allocated arity behaves.  Safety (ordering) facts are proved over all valid
traces; schedulability facts are witnessed by concrete valid traces.
-/

namespace Barley

/-- Unique node identifier.  In the source this is a freshly generated
UUID (`Id(Uuid)` with bit-level equality and hashing); only freshness and
decidable equality matter to the scheduler, so it is modelled as `Nat`. -/
abbrev Id := Nat

/-- Modelled from the spec: record `{needs_run: bool, can_rollback: bool}`
returned by an action's `probe` (the defining `struct Probe` lives in the
crate root that is not among the provided sources; its two fields are fixed
by every use site, e.g. `runtime.rs` lines 112 and 189 and the literal in
`barley-std/src/fs.rs`). -/
structure Probe where
  needs_run : Bool
  can_rollback : Bool
deriving DecidableEq, Repr

/-- Modelled from the spec: `Operation` enum `{Perform, Rollback}` passed to
`run` (defined in the crate root, used at `runtime.rs` lines 119 and 233). -/
inductive Operation where
  | Perform
  | Rollback
deriving DecidableEq, Repr

/-- Error taxonomy, from `error.rs` (`pub enum ActionError`, re-exported as
`Error`).  `InternalError` carries a `&'static str` code, modelled as
`String`. -/
inductive Error where
  | ActionFailed (short long : String)
  | OutputConversionFailed (target : String)
  | InternalError (code : String)
  | NoActionReturn
  | OperationNotSupported
  | StateNotLoaded
deriving DecidableEq, Repr

/-- Action output, from `output.rs` (`pub enum ActionOutput`, re-exported as
`Output`).  `Integer` carries an `i64` and `Float` an `f64`; the runtime
and the conversions only move these payloads without arithmetic, so they
are modelled as `Int` and Lean's IEEE-754 `Float`. -/
inductive Output where
  | String (value : String)
  | Integer (value : Int)
  | Float (value : Float)
  | Boolean (value : Bool)
deriving Repr

/-- `impl TryFrom<ActionOutput> for String` (`output.rs` lines 23-32). -/
def tryIntoString : Output → Except Error String
  | .String v => .ok v
  | _ => .error (.OutputConversionFailed "String")

/-- `impl TryFrom<ActionOutput> for i64` (`output.rs` lines 34-43). -/
def tryIntoI64 : Output → Except Error Int
  | .Integer v => .ok v
  | _ => .error (.OutputConversionFailed "i64")

/-- `impl TryFrom<ActionOutput> for f64` (`output.rs` lines 45-54). -/
def tryIntoF64 : Output → Except Error Float
  | .Float v => .ok v
  | _ => .error (.OutputConversionFailed "f64")

/-- `impl TryFrom<ActionOutput> for bool` (`output.rs` lines 56-65). -/
def tryIntoBool : Output → Except Error Bool
  | .Boolean v => .ok v
  | _ => .error (.OutputConversionFailed "bool")

/-- `impl From<String> for ActionOutput` (`output.rs` lines 67-71). -/
def ofString (value : String) : Output := .String value

/-- `impl From<i64> for ActionOutput` (`output.rs` lines 73-77). -/
def ofI64 (value : Int) : Output := .Integer value

/-- `impl From<f64> for ActionOutput` (`output.rs` lines 79-83). -/
def ofF64 (value : Float) : Output := .Float value

/-- `impl From<bool> for ActionOutput` (`output.rs` lines 85-89). -/
def ofBool (value : Bool) : Output := .Boolean value

/-- `impl From<&str> for ActionOutput` (`output.rs` lines 91-95). -/
def ofStr (value : String) : Output := .String value

/-- A graph node, from `action.rs` (`pub struct ActionObject`, named `Node`
in the revision `runtime.rs`/`scope.rs` compile against — the prelude
re-exports `action::Node as ActionObject`).  The source struct is
`{action: Arc<dyn Action>, deps: Vec<ActionObject>, id: Id}`.  The shared
`action` trait object carries no data the scheduler inspects; its behaviour
(the results of `probe` and `run`) is modelled separately by a `Behavior`
assignment keyed by the node's id.  `#[derive(Clone)]` on the struct clones
the `deps` vector element-wise (a deep copy of the list structure), which
Lean's value semantics renders exactly. -/
inductive Node where
  | mk (id : Id) (deps : List Node)

/-- Field accessor `ActionObject::id` (`action.rs` lines 70-72). -/
def Node.id : Node → Id
  | .mk i _ => i

/-- Field accessor `ActionObject::deps` (`action.rs` lines 74-76; the source
returns `self.deps.clone()`, a copy of the list). -/
def Node.deps : Node → List Node
  | .mk _ ds => ds

/-- The dependency ids the scheduler consumes
(`action.deps().iter().map(Node::id)`, `runtime.rs` lines 63-65). -/
def Node.depIds (n : Node) : List Id := n.deps.map Node.id

/-- `ActionObject::requires` (`action.rs` lines 86-89): pushes a dependency
onto this node's own `deps` vector and returns the updated node (the Rust
method mutates `&mut self`; the caller's copy is the one changed). -/
def Node.requires (self other : Node) : Node :=
  .mk self.id (self.deps ++ [other])

/-- A scope, from `scope.rs`: `pub struct Scope { actions: Vec<Node> }`. -/
structure Scope where
  actions : List Node

/-- `Scope::new` (`scope.rs` lines 18-22). -/
def Scope.new : Scope := ⟨[]⟩

/-- `Scope::add_action` (`scope.rs` lines 29-33): converts the argument into
a `Node`, pushes `action.clone()` (a deep copy of id and deps list) into the
scope, and returns the original node for further `requires` calls.  The
returned pair is (scope after the push, returned handle). -/
def Scope.add_action (s : Scope) (action : Node) : Scope × Node :=
  ({ actions := s.actions ++ [action] }, action)

/-- `Scope::actions` (`scope.rs` lines 36-39). -/
def Scope.actionsList (s : Scope) : List Node := s.actions

/-- The behaviour of the `Arc<dyn Action>` held by a node, keyed by node id:
the value an execution of `probe(runtime)` produces and the value an
execution of `run(runtime, Operation::Perform)` produces.  The scheduler in
`runtime.rs` treats both calls as black boxes and only inspects these
results, so a fixed assignment per node is the faithful abstraction of one
execution's action behaviour. -/
structure Behavior where
  probe : Except Error Probe
  runPerform : Except Error (Option Output)

/-- Observable events of the concurrent execution inside
`Runtime::perform` / `Runtime::rollback`.  `arrive t b` is task `t` calling
`wait()` on the barrier of node `b` (`runtime.rs` lines 107-109 and
130-132); `pass t b` is that `wait()` returning; `probe`, `runPerform` and
`runRollback` are the calls at lines 111, 119 and 233; `insertOutput` is
the output-store insert at line 135 (the inserted value is determined by
the task's `Behavior`, so the event needs no payload). -/
inductive Event where
  | arrive (task bar : Id)
  | pass (task bar : Id)
  | probe (task : Id)
  | runPerform (task : Id)
  | insertOutput (task : Id)
  | runRollback (task : Id)
deriving DecidableEq, Repr

/-- The task an event belongs to. -/
def Event.task : Event → Id
  | .arrive t _ => t
  | .pass t _ => t
  | .probe t => t
  | .runPerform t => t
  | .insertOutput t => t
  | .runRollback t => t

/-- Whether an event is an arrival at the barrier of node `b`. -/
def Event.isArriveOn (b : Id) : Event → Bool
  | .arrive _ b' => b' == b
  | _ => false

/-- The dependents count `Runtime::perform` computes (`runtime.rs` lines
54-70): for each action in list order, `dependents.insert(action.id, 0)` —
an unconditional `HashMap::insert`, overwriting any count already
accumulated for that id — followed by `*dependents.entry(id).or_insert(0)
+= 1` for every id in the action's dep list. -/
def computeDependents (actions : List Node) : Id → Nat :=
  actions.foldl
    (fun m a =>
      a.depIds.foldl
        (fun m' d => fun j => if j = d then m' j + 1 else m' j)
        (fun j => if j = a.id then 0 else m j))
    (fun _ => 0)

/-- Whether a barrier is allocated for node id `i` (`runtime.rs` lines
75-82: a barrier exists exactly for the ids whose computed dependents count
is nonzero). -/
def hasBarrier (actions : List Node) (i : Id) : Bool :=
  computeDependents actions i != 0

/-- Arity of the barrier for node id `i`:
`Barrier::new(dependents + 1)` (`runtime.rs` line 80). -/
def barrierArity (actions : List Node) (i : Id) : Nat :=
  computeDependents actions i + 1

/-- The deterministic event list of the task `Runtime::perform` spawns for
action `a` (`runtime.rs` lines 104-139), given the action behaviours:
wait on the barrier of every dep for which a barrier exists
(`filter_map(|id| self.barriers.get(&id))`, lines 98-100, then the wait
loop at 107-109); call `probe` (line 111) — an `Err` propagates out via
`?`; an `Ok` with `needs_run == false` returns at line 113 *without
touching the task's own barrier*; otherwise call `run` (line 119) — on
`Err` the task returns at line 125, again without signalling; on `Ok` wait
on the task's own barrier if one exists (lines 130-132) and finally insert
the output into the store when it is `Some` (lines 134-136). -/
def taskProgram (actions : List Node) (beh : Id → Behavior) (a : Node) : List Event :=
  ((a.depIds.filter (fun d => hasBarrier actions d)).flatMap
      (fun d => [Event.arrive a.id d, Event.pass a.id d])) ++
  Event.probe a.id ::
  (match (beh a.id).probe with
   | .error _ => []
   | .ok p =>
     if !p.needs_run then []
     else
       Event.runPerform a.id ::
       (match (beh a.id).runPerform with
        | .error _ => []
        | .ok out =>
          (if hasBarrier actions a.id then
            [Event.arrive a.id a.id, Event.pass a.id a.id]
          else []) ++
          (match out with
           | some _ => [Event.insertOutput a.id]
           | none => [])))

/-- Boolean prefix test on event lists (used instead of the library's
test so the development controls its defining equations). -/
def isStart : List Event → List Event → Bool
  | [], _ => true
  | _ :: _, [] => false
  | a :: l₁, b :: l₂ => a == b && isStart l₁ l₂

/-- The subsequence of trace events belonging to task `i`. -/
def projectTask (t : List Event) (i : Id) : List Event :=
  t.filter (fun e => e.task == i)

/-- Number of arrivals at the barrier of node `b` among the first `k`
events of the trace. -/
def arrivalsBefore (t : List Event) (k : Nat) (b : Id) : Nat :=
  ((t.take k).filter (Event.isArriveOn b)).length

/-- Validity of a (possibly partial) event trace of `Runtime::perform` on
the given action list and behaviours:
each task's events form a prefix of its program (tasks may be cancelled,
blocked, or not yet scheduled at any point — `JoinSet::abort_all`, line
146); every event belongs to a spawned task; and a `wait()` on a barrier
returns (`pass`) only once at least `arity` parties have called `wait()`
on it (`arrive`), which is how `tokio::sync::Barrier::new(arity)` behaves. -/
def validTrace (actions : List Node) (beh : Id → Behavior) (t : List Event) : Bool :=
  (actions.all fun a => isStart (projectTask t a.id) (taskProgram actions beh a)) &&
  (t.all fun e => actions.any fun a => a.id == e.task) &&
  ((List.range t.length).all fun k =>
    match t[k]? with
    | some (Event.pass _ b) => barrierArity actions b ≤ arrivalsBefore t k b
    | _ => true)

/-- The output store (`outputs: Arc<RwLock<HashMap<Id, Output>>>`) after the
events of a trace: each `insertOutput i` event performs
`outputs.write().await.insert(action.id, output)` (`runtime.rs` line 135)
with the value `run` returned, i.e. the task's behaviour's `Ok(Some v)`
payload.  `Runtime::get_output(n)` (lines 263-265) reads this map at
`n.id`. -/
def storeStep (beh : Id → Behavior) (m : Id → Option Output) : Event → Id → Option Output
  | .insertOutput i =>
    (match (beh i).runPerform with
     | .ok (some o) => fun j => if j = i then some o else m j
     | _ => m)
  | _ => m

/-- The output store after a trace: fold `storeStep` over the events,
starting from the empty map. -/
def outputsAfter (beh : Id → Behavior) (t : List Event) : Id → Option Output :=
  t.foldl (storeStep beh) (fun _ => none)

/-- The value a task's `run(Perform)` publishes, if any: the payload of an
`Ok(Some v)` result. -/
def behValue (beh : Id → Behavior) (i : Id) : Option Output :=
  match (beh i).runPerform with
  | .ok (some o) => some o
  | _ => none

/-- The rollback gate (`runtime.rs` lines 185-192): probe every action in
list order; an `Err` from `probe` propagates via `?`, and the first action
whose probe is `Ok` with `can_rollback == false` makes `rollback` return
`Err(Error::InternalError("NO_ROLLBACK"))`.  `none` means the gate passed
and rollback proceeds. -/
def rollbackGate (actions : List Node) (beh : Id → Behavior) : Option Error :=
  match actions with
  | [] => none
  | a :: rest =>
    match (beh a.id).probe with
    | .error e => some e
    | .ok p =>
      if !p.can_rollback then some (.InternalError "NO_ROLLBACK")
      else rollbackGate rest beh

/-- The tasks `Runtime::rollback` spawns (`runtime.rs` lines 226-237): when
the gate returns early nothing is spawned; otherwise one task per action.
The source first permutes the list with `sort_by` (lines 210-224) using a
comparator on direct dependent membership, but each spawned task body is
the single call `action.run(runtime, Operation::Rollback)` with no
synchronisation whatever between tasks, so the set of spawned tasks — and
hence the set of valid traces below, which constrains only per-task order —
is independent of the permutation. -/
def rollbackSpawns (actions : List Node) (beh : Id → Behavior) : List Node :=
  match rollbackGate actions beh with
  | some _ => []
  | none => actions

/-- Validity of an event trace of `Runtime::rollback`: each spawned task's
events form a prefix of its one-event program `[runRollback id]`
(`runtime.rs` lines 232-236), and every event belongs to a spawned task. -/
def rollbackValidTrace (actions : List Node) (beh : Id → Behavior) (t : List Event) : Bool :=
  (rollbackSpawns actions beh).all
      (fun a => isStart (projectTask t a.id) [Event.runRollback a.id]) &&
  (t.all fun e => (rollbackSpawns actions beh).any fun a => a.id == e.task)

/-- Association-list lookup of the first binding of a key, matching
`HashMap::get` on a map maintained by `insert` below. -/
def lookupKey {V : Type} (l : List (String × V)) (k : String) : Option V :=
  match l with
  | [] => none
  | (k', v) :: rest => if k' = k then some v else lookupKey rest k

/-- Association-list insert with `HashMap::insert` semantics (the newest
binding wins on lookup). -/
def insertKey {V : Type} (l : List (String × V)) (k : String) (v : V) : List (String × V) :=
  (k, v) :: l

/-- `RuntimeBuilder` (`runtime.rs` lines 300-305).  The values stored in
`state`/`variables` are `Arc<dyn Any + Send + Sync>`; the heterogeneous
payload type is modelled by a parameter `V` (and `TypeId` keys by `Nat`),
which loses nothing the variable claims depend on. -/
structure RuntimeBuilder (V : Type) where
  ctx : List Node
  state : List (Nat × V)
  vars : List (String × V)

/-- `Runtime`'s builder-independent fields relevant to variables
(`runtime.rs` lines 35-42; `ctx`, `barriers` and `outputs` take no part in
variable lookup and the barrier/output machinery is modelled separately
above, so they are reduced to the action list here). -/
structure Runtime (V : Type) where
  ctx : List Node
  state : List (Nat × V)
  vars : List (String × V)

/-- `RuntimeBuilder::new` (`runtime.rs` lines 310-316). -/
def RuntimeBuilder.new (V : Type) : RuntimeBuilder V :=
  { ctx := [], state := [], vars := [] }

/-- `RuntimeBuilder::set_variable` (`runtime.rs` lines 353-356):
`self.variables.insert(name.to_string(), Arc::new(value))`. -/
def RuntimeBuilder.set_variable {V : Type} (b : RuntimeBuilder V) (name : String) (value : V) : RuntimeBuilder V :=
  { b with vars := insertKey b.vars name value }

/-- `RuntimeBuilder::get_variable` (`runtime.rs` lines 365-369): looks up
the literal key `"name"` — the `name` the caller asked about never enters
the lookup (the method does not even take one). -/
def RuntimeBuilder.get_variable {V : Type} (b : RuntimeBuilder V) : Option V :=
  lookupKey b.vars "name"

/-- `RuntimeBuilder::build` (`runtime.rs` lines 336-344): moves `ctx` and
`state` into the `Runtime` but sets `variables: HashMap::new()` — the
builder's variables map is discarded. -/
def RuntimeBuilder.build {V : Type} (b : RuntimeBuilder V) : Runtime V :=
  { ctx := b.ctx, state := b.state, vars := [] }

/-- `Runtime::set_variable` (`runtime.rs` lines 281-283). -/
def Runtime.set_variable {V : Type} (r : Runtime V) (name : String) (value : V) : Runtime V :=
  { r with vars := insertKey r.vars name value }

/-- `Runtime::get_variable` (`runtime.rs` lines 292-296): like the
builder's, reads `self.variables.get("name")` — the hardcoded string
`"name"`, with no name parameter. -/
def Runtime.get_variable {V : Type} (r : Runtime V) : Option V :=
  lookupKey r.vars "name"

/-- What the error-handling arm of the join loops prints, as (standard
output lines, standard error lines).  Both `Runtime::perform`
(`runtime.rs` lines 145-153) and `Runtime::rollback` (lines 242-250)
handle a surfaced `Err(err)` identically: `join_set.abort_all()`, then
`if let Error::ActionFailed(_, long) = err { println!("{long}") }` —
`println!` writes to standard output — and `return Err(err)` with the
error value untouched. -/
def abortReport (err : Error) : (List String × List String) × Error :=
  (match err with
   | .ActionFailed _ long => ([long], [])
   | _ => ([], []), err)

/-! Concrete graphs, behaviours and traces at which the claims are
evaluated.  Ids: node `A` is `0`, node `B` is `1`; `B` lists `A` in its
deps (the edge `A → B`). -/

/-- Node `A` (no dependencies). -/
def nodeA : Node := .mk 0 []

/-- Node `B`, holding a clone of `A` in its `deps` (the state after
`b.requires(a)`). -/
def nodeB : Node := .mk 1 [.mk 0 []]

/-- Probe result of an action that needs to run and supports rollback. -/
def probeYes : Probe := { needs_run := true, can_rollback := true }

/-- A graph in which the dependent `B` was added to the builder before its
dependency `A` (legal via `RuntimeBuilder::add_action`, which appends in
call order). -/
def gC1 : List Node := [nodeB, nodeA]

/-- Both actions probe as needing to run and their runs succeed without
producing an output. -/
def behC1 : Id → Behavior :=
  fun _ => { probe := .ok probeYes, runPerform := .ok none }

/-- A schedule of `gC1` in which `B`'s whole task executes before `A`'s
task is scheduled at all. -/
def trC1 : List Event :=
  [.probe 1, .runPerform 1, .probe 0, .runPerform 0]

/-- The graph `[A, B]` in dependency order (`A` added first). -/
def gC2 : List Node := [nodeA, nodeB]

/-- `A` runs and returns `Some(Integer 5)`; `B` runs and returns `None`. -/
def behC2 : Id → Behavior := fun i =>
  if i = 0 then { probe := .ok probeYes, runPerform := .ok (some (.Integer 5)) }
  else { probe := .ok probeYes, runPerform := .ok none }

/-- A schedule of `gC2` in which `A` finishes `run`, both parties reach
`A`'s barrier, `B` is released and probes and runs — all before `A`'s task
is scheduled again to perform the output-store insert. -/
def trC2 : List Event :=
  [.probe 0, .runPerform 0, .arrive 1 0, .arrive 0 0,
   .pass 1 0, .probe 1, .runPerform 1]

/-- The graph `[A, B]` again, but `A`'s probe reports
`needs_run == false` (the skip case); `B` needs to run. -/
def gC3 : List Node := [nodeA, nodeB]

/-- Behaviours for the skip scenario. -/
def behC3 : Id → Behavior := fun i =>
  if i = 0 then { probe := .ok ⟨false, true⟩, runPerform := .ok none }
  else { probe := .ok probeYes, runPerform := .ok none }

/-- The task program of `B` under `behC3`: wait on `A`'s barrier, then
probe and run. -/
def programB3 : List Event :=
  [.arrive 1 0, .pass 1 0, .probe 1, .runPerform 1]

/-- One-node graph for the rollback gate. -/
def gC4 : List Node := [nodeA]

/-- Its action probes successfully but does not support rollback. -/
def behC4 : Id → Behavior :=
  fun _ => { probe := .ok ⟨true, false⟩, runPerform := .ok none }

/-- The graph `[A, B]` with both actions rollbackable. -/
def gC5 : List Node := [nodeA, nodeB]

/-- Behaviours for the rollback-order scenario. -/
def behC5 : Id → Behavior :=
  fun _ => { probe := .ok probeYes, runPerform := .ok none }

/-- A rollback schedule in which `A`'s `run(Rollback)` begins (and
completes) before `B`'s. -/
def trC5 : List Event := [.runRollback 0, .runRollback 1]

/-- The graph `[A, B]` for the failed-perform frame claim. -/
def gC9 : List Node := [nodeA, nodeB]

/-- `A` runs and returns `Some(Integer 5)`; `B` would fail, surfacing the
first error of the `perform`. -/
def behC9 : Id → Behavior := fun i =>
  if i = 0 then { probe := .ok probeYes, runPerform := .ok (some (.Integer 5)) }
  else { probe := .ok probeYes, runPerform := .error (.ActionFailed "boom" "detail") }

/-- A schedule of `gC9` in which `A` finishes completely (its output is
inserted) and `B` has only arrived at the barrier when the abort happens. -/
def trC9 : List Event :=
  [.probe 0, .runPerform 0, .arrive 1 0, .arrive 0 0,
   .pass 0 0, .insertOutput 0]

/-! Theorems. -/

/-- C1.  The claim fails on the code: when the dependent `B` precedes its
dependency `A` in the action list, the loop at `runtime.rs` lines 60-70
re-inserts `0` for `A` after `B`'s dep already incremented it, so `A` gets
no barrier, `B`'s task awaits nothing (`filter_map` finds no barrier for
the listed dependency), and a valid schedule runs `B`'s `probe` and `run`
to completion before `A`'s task has executed anything. -/
theorem C1_dependents_reset_skips_barrier :
    computeDependents gC1 0 = 0 ∧
    hasBarrier gC1 0 = false ∧
    nodeB.depIds = [0] ∧
    Event.arrive 1 0 ∉ taskProgram gC1 behC1 nodeB ∧
    validTrace gC1 behC1 trC1 = true ∧
    trC1.take 2 = [.probe 1, .runPerform 1] ∧
    Event.runPerform 0 ∉ trC1.take 2 ∧
    Event.probe 0 ∉ trC1.take 2 := by
  decide

/-- C2.  The claim fails on the code: the producer waits on its own barrier
(`runtime.rs` lines 130-132) *before* inserting its output (lines 134-136),
so there is a valid schedule in which `B` is released, probes and runs
while `A`'s `Some(Integer 5)` has not yet been inserted: at `B`'s
`runPerform` (index 6 of the trace) the output store still answers `none`
for `A` — indeed no insert has happened anywhere in the trace. -/
theorem C2_release_before_insert_schedule :
    validTrace gC2 behC2 trC2 = true ∧
    trC2[6]? = some (.runPerform 1) ∧
    (behC2 0).runPerform = .ok (some (.Integer 5)) ∧
    outputsAfter behC2 (trC2.take 6) 0 = none ∧
    Event.insertOutput 0 ∉ trC2 := by
  refine ⟨by decide, by decide, rfl, rfl, by decide⟩

/-- C5.  The claim fails on the code: `Runtime::rollback` spawns one
unsynchronised task per action into a `JoinSet` (`runtime.rs` lines
226-237); whatever order the (non-transitive) comparator at lines 211-224
produced, nothing orders the task bodies, so the schedule in which `A`'s
`run(Rollback)` begins and completes before `B`'s is valid even though `B`
lists `A` as a dependency. -/
theorem C5_rollback_dependency_first_schedule :
    rollbackGate gC5 behC5 = none ∧
    nodeB.depIds = [0] ∧
    rollbackValidTrace gC5 behC5 trC5 = true ∧
    trC5 = [.runRollback 0, .runRollback 1] := by
  decide

/-- C6.  The claim fails on the code twice over: `RuntimeBuilder::build`
(`runtime.rs` lines 336-344) throws the builder's variables away
(`variables: HashMap::new()`), and both `get_variable`s (lines 292-296 and
365-369) look up the hardcoded literal key `"name"` — they do not even take
a name argument.  So a variable set under `"x"` on the builder is gone
after `build()`, is invisible even on the builder, and setting `"x"` on the
built runtime is equally invisible, while the accidental key `"name"` is
the only one `get_variable` can ever see. -/
theorem C6_variables_dropped_and_key_hardcoded :
    (((RuntimeBuilder.new Nat).set_variable "x" 7).build).get_variable = none ∧
    ((RuntimeBuilder.new Nat).set_variable "x" 7).get_variable = none ∧
    (((RuntimeBuilder.new Nat).build).set_variable "x" 7).get_variable = none ∧
    (((RuntimeBuilder.new Nat).build).set_variable "name" 7).get_variable = some 7 := by
  refine ⟨rfl, by decide, by decide, by decide⟩

/-- C7 counterexample.  On abort after `ActionFailed("boom", "detail")`
nothing is written to standard error — the claim that `long` goes to
standard error fails (`println!` at `runtime.rs` line 149 writes to
standard output). -/
theorem C7_counterexample_stderr_empty :
    (abortReport (.ActionFailed "boom" "detail")).fst.snd = [] ∧
    (abortReport (.ActionFailed "boom" "detail")).snd
      = .ActionFailed "boom" "detail" := by
  exact ⟨rfl, rfl⟩

/-- C7 amended.  Whenever `perform` (or `rollback`) aborts on a surfaced
error: if that first error is `ActionFailed(short, long)` the text `long`
is written to standard *output* (not standard error), and every error kind
— `ActionFailed` included — is returned to the caller verbatim, the core
printing nothing else. -/
theorem C7_abort_prints_long_to_stdout :
    (∀ short long,
      abortReport (.ActionFailed short long) = (([long], []), .ActionFailed short long)) ∧
    (∀ e : Error, (∀ s l, e ≠ .ActionFailed s l) → abortReport e = (([], []), e)) := by
  constructor
  · intro short long
    rfl
  · intro e h
    cases e with
    | ActionFailed s l => exact absurd rfl (h s l)
    | _ => rfl

/-- C8.  Conversions between `Output` and the four primitive carriers:
primitive → `Output` always succeeds and converting back returns the
carried value exactly; on a variant mismatch the conversion fails with
`OutputConversionFailed` naming the target type; in particular
`Integer(7)` → `String` fails with `OutputConversionFailed("String")`. -/
theorem C8_output_conversion_round_trip :
    (∀ s, tryIntoString (ofString s) = .ok s) ∧
    (∀ i, tryIntoI64 (ofI64 i) = .ok i) ∧
    (∀ f, tryIntoF64 (ofF64 f) = .ok f) ∧
    (∀ b, tryIntoBool (ofBool b) = .ok b) ∧
    (∀ s, tryIntoString (ofStr s) = .ok s) ∧
    (∀ o, (∀ v, o ≠ .String v) →
      tryIntoString o = .error (.OutputConversionFailed "String")) ∧
    (∀ o, (∀ v, o ≠ .Integer v) →
      tryIntoI64 o = .error (.OutputConversionFailed "i64")) ∧
    (∀ o, (∀ v, o ≠ .Float v) →
      tryIntoF64 o = .error (.OutputConversionFailed "f64")) ∧
    (∀ o, (∀ v, o ≠ .Boolean v) →
      tryIntoBool o = .error (.OutputConversionFailed "bool")) ∧
    tryIntoString (.Integer 7) = .error (.OutputConversionFailed "String") := by
  refine ⟨fun s => rfl, fun i => rfl, fun f => rfl, fun b => rfl, fun s => rfl,
    ?_, ?_, ?_, ?_, rfl⟩
  · intro o h
    cases o with
    | String v => exact absurd rfl (h v)
    | _ => rfl
  · intro o h
    cases o with
    | Integer v => exact absurd rfl (h v)
    | _ => rfl
  · intro o h
    cases o with
    | Float v => exact absurd rfl (h v)
    | _ => rfl
  · intro o h
    cases o with
    | Boolean v => exact absurd rfl (h v)
    | _ => rfl

/-- C10.  `Scope::add_action` stores a copy and returns the original
handle: the stored entry and the handle carry the same id; a later
`requires(d)` on the returned handle yields a node with `d` appended to
*its* dep list while the scope's stored entry still holds the dep list `n`
had at the moment `add_action` was called (the derived `Clone` copies the
`deps` vector, so builder-side `add_scope` sees exactly that snapshot). -/
theorem C10_scope_copy_and_handle_independent :
    ∀ (s : Scope) (n d : Node),
      (s.add_action n).fst.actions = s.actions ++ [n] ∧
      (s.add_action n).snd = n ∧
      ((s.add_action n).snd.requires d).id = n.id ∧
      ((s.add_action n).snd.requires d).deps = n.deps ++ [d] ∧
      (s.add_action n).fst.actions.getLast? = some n := by
  intro s n d
  refine ⟨rfl, rfl, rfl, rfl, ?_⟩
  simp [Scope.add_action]

/-- A Boolean prefix is in particular a sublist. -/
theorem isStart_sublist : ∀ l₁ l₂ : List Event, isStart l₁ l₂ = true → l₁.Sublist l₂
  | [], l₂, _ => List.nil_sublist l₂
  | _ :: _, [], h => by simp [isStart] at h
  | a :: l₁, b :: l₂, h => by
    simp only [isStart, Bool.and_eq_true] at h
    obtain ⟨h₁, h₂⟩ := h
    obtain rfl : a = b := eq_of_beq h₁
    exact List.Sublist.cons₂ a (isStart_sublist l₁ l₂ h₂)

/-- Members of a Boolean prefix are members of the whole list. -/
theorem mem_of_isStart {e : Event} {l₁ l₂ : List Event}
    (h : isStart l₁ l₂ = true) (hm : e ∈ l₁) : e ∈ l₂ :=
  (isStart_sublist _ _ h).subset hm

/-- A Boolean prefix has no more `p`-events than the whole list. -/
theorem filter_length_le_of_isStart (p : Event → Bool) {l₁ l₂ : List Event}
    (h : isStart l₁ l₂ = true) :
    (l₁.filter p).length ≤ (l₂.filter p).length :=
  ((isStart_sublist _ _ h).filter p).length_le

/-- Splitting a count over two covering predicates: when every event of the
trace satisfies `q` or `q'`, the `p`-events are no more numerous than the
`p`-events of the two restrictions together. -/
theorem filter_split_le (p q q' : Event → Bool) :
    ∀ t : List Event, (∀ e ∈ t, q e = true ∨ q' e = true) →
      (t.filter p).length ≤
        ((t.filter q).filter p).length + ((t.filter q').filter p).length
  | [], _ => by simp
  | e :: t, h => by
    have ht : ∀ e' ∈ t, q e' = true ∨ q' e' = true :=
      fun e' he' => h e' (List.mem_cons_of_mem _ he')
    have ih := filter_split_le p q q' t ht
    have he := h e (List.mem_cons_self e t)
    rcases he with he | he
    · by_cases hp : p e = true <;> by_cases hq' : q' e = true <;>
        simp [List.filter_cons, hp, he, hq', -List.filter_filter] <;> omega
    · by_cases hp : p e = true <;> by_cases hq : q e = true <;>
        simp [List.filter_cons, hp, he, hq, -List.filter_filter] <;> omega

/-- In any prefix of `B`'s task program that contains `B`'s `probe`, the
release of `A`'s barrier has already happened. -/
theorem pass_before_probe_in_prefixB :
    ∀ l : List Event, isStart l programB3 = true → Event.probe 1 ∈ l →
      Event.pass 1 0 ∈ l
  | [], _, hm => by simp at hm
  | [e₁], h, hm => by
    simp only [programB3, isStart, Bool.and_eq_true] at h
    obtain ⟨h₁, -⟩ := h
    obtain rfl : e₁ = Event.arrive 1 0 := eq_of_beq h₁
    simp at hm
  | e₁ :: e₂ :: l, h, _ => by
    simp only [programB3, isStart, Bool.and_eq_true] at h
    obtain ⟨-, h₂, -⟩ := h
    obtain rfl : e₂ = Event.pass 1 0 := eq_of_beq h₂
    exact List.mem_cons_of_mem _ (List.mem_cons_self _ _)

/-- C3.  The claim fails on the code: a node whose probe reports
`needs_run == false` returns at `runtime.rs` line 113, *before* the
self-barrier wait at lines 130-132 — its task program is just the probe,
with no arrival at its own barrier.  Since `A`'s barrier has arity 2 and
the only other party that ever arrives is `B` itself, no valid trace can
contain the release of `B`'s wait, hence none contains `B`'s `probe`:
instead of skipping straight to the barrier signal, the skip deadlocks
every dependent and `perform` never completes. -/
theorem C3_skip_returns_without_signaling :
    taskProgram gC3 behC3 nodeA = [Event.probe 0] ∧
    barrierArity gC3 0 = 2 ∧
    ∀ t, validTrace gC3 behC3 t = true → Event.probe 1 ∉ t := by
  refine ⟨by decide, by decide, ?_⟩
  intro t hv hmem
  simp only [validTrace, Bool.and_eq_true] at hv
  obtain ⟨⟨hproj, htasks⟩, hbar⟩ := hv
  have hA := List.all_eq_true.mp hproj nodeA (List.mem_cons_self _ _)
  have hB := List.all_eq_true.mp hproj nodeB
    (List.mem_cons_of_mem _ (List.mem_cons_self _ _))
  have hprogB : taskProgram gC3 behC3 nodeB = programB3 := by decide
  rw [hprogB] at hB
  have hprobe : Event.probe 1 ∈ projectTask t 1 :=
    List.mem_filter.mpr ⟨hmem, by decide⟩
  have hpassProj : Event.pass 1 0 ∈ projectTask t 1 :=
    pass_before_probe_in_prefixB _ hB hprobe
  have hpass : Event.pass 1 0 ∈ t := (List.mem_filter.mp hpassProj).1
  obtain ⟨k, hk⟩ := List.mem_iff_getElem?.mp hpass
  have hklt : k < t.length := by
    rcases List.getElem?_eq_some.mp hk with ⟨hlt, -⟩
    exact hlt
  have hcond := List.all_eq_true.mp hbar k (List.mem_range.mpr hklt)
  rw [hk] at hcond
  have hge : barrierArity gC3 0 ≤ arrivalsBefore t k 0 := by
    simpa using hcond
  have harr : arrivalsBefore t k 0 ≤ (t.filter (Event.isArriveOn 0)).length :=
    ((List.take_sublist k t).filter _).length_le
  have htasks' : ∀ e ∈ t, e.task = 0 ∨ e.task = 1 := by
    intro e he
    have := List.all_eq_true.mp htasks e he
    simp only [gC3, nodeA, nodeB, List.any_cons, List.any_nil,
      Bool.or_eq_true, beq_iff_eq] at this
    rcases this with h | h | h
    · exact Or.inl (by simpa [Node.id] using h.symm)
    · exact Or.inr (by simpa [Node.id] using h.symm)
    · exact absurd h (by simp)
  have hsplit := filter_split_le (Event.isArriveOn 0)
    (fun e => e.task == 0) (fun e => e.task == 1) t
    (fun e he => by
      rcases htasks' e he with h | h
      · exact Or.inl (by simp [h])
      · exact Or.inr (by simp [h]))
  have h0 : ((projectTask t 0).filter (Event.isArriveOn 0)).length ≤
      (([Event.probe 0] : List Event).filter (Event.isArriveOn 0)).length := by
    have := filter_length_le_of_isStart (Event.isArriveOn 0)
      (by simpa using hA)
    simpa using this
  have h1 : ((projectTask t 1).filter (Event.isArriveOn 0)).length ≤
      ((programB3).filter (Event.isArriveOn 0)).length :=
    filter_length_le_of_isStart (Event.isArriveOn 0) hB
  have hpA : (([Event.probe 0] : List Event).filter (Event.isArriveOn 0)).length = 0 := by decide
  have hpB : ((programB3).filter (Event.isArriveOn 0)).length = 1 := by decide
  have harity : barrierArity gC3 0 = 2 := by decide
  rw [harity] at hge
  simp only [projectTask] at h0 h1
  unfold arrivalsBefore at hge harr
  omega

/-- The rollback gate returns `InternalError("NO_ROLLBACK")` whenever every
probe succeeds and some probe reports `can_rollback == false`
(`runtime.rs` lines 185-192). -/
theorem rollbackGate_no_rollback (beh : Id → Behavior) :
    ∀ actions : List Node,
      (∀ a ∈ actions, ∃ p, (beh a.id).probe = .ok p) →
      (∃ a ∈ actions, ∃ p, (beh a.id).probe = .ok p ∧ p.can_rollback = false) →
      rollbackGate actions beh = some (.InternalError "NO_ROLLBACK")
  | [], _, hbad => by simp at hbad
  | a :: rest, hok, hbad => by
    obtain ⟨p, hp⟩ := hok a (List.mem_cons_self a rest)
    unfold rollbackGate
    rw [hp]
    by_cases hc : p.can_rollback = true
    · simp only [hc, Bool.not_true, Bool.false_eq_true, if_false]
      apply rollbackGate_no_rollback beh rest
      · intro a' ha'
        exact hok a' (List.mem_cons_of_mem _ ha')
      · obtain ⟨a', ha', p', hp', hcr⟩ := hbad
        rcases List.mem_cons.mp ha' with rfl | h
        · rw [hp] at hp'
          obtain rfl : p = p' := by
            injection hp'
          exact absurd hc (by simp [hcr])
        · exact ⟨a', h, p', hp', hcr⟩
    · have hcf : p.can_rollback = false := by
        simpa using hc
      simp [hcf]

/-- C4.  When every node's probe succeeds and at least one reports
`can_rollback == false`, `Runtime::rollback` returns
`InternalError("NO_ROLLBACK")` from the gate loop at `runtime.rs` lines
185-192 — which runs before the spawn loop at lines 226-237 — so no task
is spawned and no `run(Rollback)` is invoked on any node. -/
theorem C4_rollback_gate_blocks_everything
    (actions : List Node) (beh : Id → Behavior)
    (hok : ∀ a ∈ actions, ∃ p, (beh a.id).probe = .ok p)
    (hbad : ∃ a ∈ actions, ∃ p, (beh a.id).probe = .ok p ∧ p.can_rollback = false) :
    rollbackGate actions beh = some (.InternalError "NO_ROLLBACK") ∧
    ∀ t, rollbackValidTrace actions beh t = true →
      ∀ i, Event.runRollback i ∉ t := by
  have hg := rollbackGate_no_rollback beh actions hok hbad
  refine ⟨hg, ?_⟩
  intro t hv i hmem
  have hsp : rollbackSpawns actions beh = [] := by
    simp [rollbackSpawns, hg]
  simp only [rollbackValidTrace, hsp, Bool.and_eq_true] at hv
  obtain ⟨-, hall⟩ := hv
  have := List.all_eq_true.mp hall _ hmem
  simp at this

/-- C4 witness: the one-node graph whose action cannot roll back. -/
theorem C4_rollback_gate_witness :
    rollbackGate gC4 behC4 = some (.InternalError "NO_ROLLBACK") :=
  (C4_rollback_gate_blocks_everything gC4 behC4
    (fun _ _ => ⟨⟨true, false⟩, rfl⟩)
    ⟨nodeA, List.mem_cons_self _ _, ⟨true, false⟩, rfl, rfl⟩).1

/-- No task `Runtime::perform` spawns ever executes a `run(Rollback)`: the
task body at `runtime.rs` lines 104-139 contains no such call, whatever the
graph and behaviours. -/
theorem runRollback_not_in_taskProgram
    (actions : List Node) (beh : Id → Behavior) (a : Node) (i : Id) :
    Event.runRollback i ∉ taskProgram actions beh a := by
  intro hmem
  unfold taskProgram at hmem
  simp only [List.mem_append, List.mem_flatMap, List.mem_cons] at hmem
  rcases hmem with ⟨d, -, hd⟩ | h | h
  · simp at hd
  · simp at h
  · cases hp : (beh a.id).probe with
    | error e =>
      rw [hp] at h
      simp at h
    | ok p =>
      rw [hp] at h
      by_cases hn : p.needs_run = true
      · simp only [hn, Bool.not_true, Bool.false_eq_true, if_false,
          List.mem_cons] at h
        rcases h with h | h
        · simp at h
        · cases hr : (beh a.id).runPerform with
          | error e =>
            rw [hr] at h
            simp at h
          | ok out =>
            rw [hr] at h
            rcases List.mem_append.mp h with h | h
            · by_cases hb : hasBarrier actions a.id = true <;>
                simp [hb] at h
            · cases out <;> simp at h
      · have hn' : p.needs_run = false := by simpa using hn
        simp [hn'] at h

/-- The store a fold of `storeStep` builds, read at `i`: the published
value of `i` when an insert for `i` happened, the inherited value
otherwise. -/
theorem storeStep_foldl (beh : Id → Behavior) :
    ∀ (t : List Event) (m : Id → Option Output) (i : Id),
      t.foldl (storeStep beh) m i =
        if Event.insertOutput i ∈ t ∧ (behValue beh i).isSome = true
        then behValue beh i else m i
  | [], m, i => by simp
  | e :: t, m, i => by
    rw [List.foldl_cons, storeStep_foldl beh t (storeStep beh m e) i]
    cases e with
    | insertOutput j =>
      by_cases hij : i = j
      · subst hij
        simp only [storeStep, behValue]
        cases hr : (beh i).runPerform with
        | error er => simp [hr]
        | ok out =>
          cases out with
          | none => simp [hr]
          | some o => simp [hr]
      · have h₁ : Event.insertOutput i ∈ Event.insertOutput j :: t ↔
            Event.insertOutput i ∈ t := by
          simp [hij]
        rw [if_congr (and_congr_left fun _ => h₁) rfl rfl]
        have h₂ : storeStep beh m (Event.insertOutput j) i = m i := by
          simp only [storeStep]
          cases hr : (beh j).runPerform with
          | error er => rfl
          | ok out =>
            cases out with
            | none => rfl
            | some o => simp [hij]
        rw [h₂]
    | arrive t' b => simp [storeStep]
    | pass t' b => simp [storeStep]
    | probe t' => simp [storeStep]
    | runPerform t' => simp [storeStep]
    | runRollback t' => simp [storeStep]

/-- C9.  Frame of a failed `perform`: over any valid trace — in particular
any trace cut short by the abort at `runtime.rs` lines 145-152 — no task
ever invokes `run(Rollback)` (perform's task bodies contain no rollback;
only an explicit `Runtime::rollback` call does), and the output store is
insert-only: whatever is present after any prefix of the trace is still
present at the end, and the store holds exactly the ids whose insert event
happened, mapped to the value their `run` returned. -/
theorem C9_failed_perform_is_frame
    (actions : List Node) (beh : Id → Behavior) (t : List Event)
    (hv : validTrace actions beh t = true) :
    (∀ i, Event.runRollback i ∉ t) ∧
    (∀ k i, (outputsAfter beh (t.take k) i).isSome = true →
      (outputsAfter beh t i).isSome = true) ∧
    (∀ i, (outputsAfter beh t i).isSome = true ↔
      (Event.insertOutput i ∈ t ∧ ∃ o, (beh i).runPerform = .ok (some o))) := by
  simp only [validTrace, Bool.and_eq_true] at hv
  obtain ⟨⟨hproj, htasks⟩, -⟩ := hv
  have hval : ∀ i, (behValue beh i).isSome = true ↔
      ∃ o, (beh i).runPerform = .ok (some o) := by
    intro i
    unfold behValue
    cases hr : (beh i).runPerform with
    | error er => simp
    | ok out =>
      cases out with
      | none => simp
      | some o => simp
  refine ⟨?_, ?_, ?_⟩
  · intro i hmem
    have htask := List.all_eq_true.mp htasks _ hmem
    rw [List.any_eq_true] at htask
    obtain ⟨a, ha, hid⟩ := htask
    have hpref := List.all_eq_true.mp hproj a ha
    have hid' : a.id = i := by
      have h' := eq_of_beq hid
      simpa [Event.task] using h'
    have hmemproj : Event.runRollback i ∈ projectTask t a.id :=
      List.mem_filter.mpr ⟨hmem, by simp [projectTask, Event.task, hid']⟩
    exact runRollback_not_in_taskProgram actions beh a i
      (mem_of_isStart hpref hmemproj)
  · intro k i h
    unfold outputsAfter at h ⊢
    rw [storeStep_foldl] at h ⊢
    by_cases hc : Event.insertOutput i ∈ t.take k ∧ (behValue beh i).isSome = true
    · have : Event.insertOutput i ∈ t ∧ (behValue beh i).isSome = true :=
        ⟨(List.take_sublist k t).subset hc.1, hc.2⟩
      rw [if_pos this]
      exact hc.2
    · rw [if_neg hc] at h
      simp at h
  · intro i
    unfold outputsAfter
    rw [storeStep_foldl]
    by_cases hc : Event.insertOutput i ∈ t ∧ (behValue beh i).isSome = true
    · rw [if_pos hc]
      simp only [hc.2, true_iff]
      exact ⟨hc.1, (hval i).mp hc.2⟩
    · rw [if_neg hc]
      simp only [Option.isSome_none, Bool.false_eq_true, false_iff]
      intro ⟨h₁, h₂⟩
      exact hc ⟨h₁, (hval i).mpr h₂⟩

/-- C9 witness: in the concrete aborted schedule `trC9` (node `A` finished
and published `Integer 5`, node `B` failed) no rollback ran and `A`'s
output is in the store. -/
theorem C9_failed_perform_is_frame_witness :
    Event.runRollback 0 ∉ trC9 ∧ (outputsAfter behC9 trC9 0).isSome = true := by
  have h := C9_failed_perform_is_frame gC9 behC9 trC9 (by decide)
  exact ⟨h.1 0, (h.2.2 0).mpr ⟨by decide, ⟨.Integer 5, rfl⟩⟩⟩

end Barley
